import Mathlib

/-!
Shallow embedding of the `compute` OpenCL wrapper (compute.hpp, later
variant, together with its implementation file) and proofs about its
device-selection, buffer-synchronization and kernel-dispatch logic.

Device handles (`cl_device_id`), platform handles (`cl_platform_id`) and
memory objects (`cl_mem`) are machine words; they are modelled as `Nat`.
Enqueued driver operations are recorded in a trace of `Op` values.
`abort()` / failed `assert` paths are modelled by `Option`/error results.
-/

namespace Compute

/-- `compute::Dim` (compute.hpp, later variant): three extents `x`, `y`, `z`.
The constructors `Dim(X)`, `Dim(X,Y)`, `Dim(X,Y,Z)` default missing
extents to 1. -/
structure Dim where
  x : Nat
  y : Nat
  z : Nat
deriving DecidableEq, Repr

/-- `Dim(X)` : y and z default to 1. -/
def Dim.mk1 (X : Nat) : Dim := ⟨X, 1, 1⟩

/-- `Dim(X, Y)` : z defaults to 1. -/
def Dim.mk2 (X Y : Nat) : Dim := ⟨X, Y, 1⟩

/-- `Dim(X, Y, Z)`. -/
def Dim.mk3 (X Y Z : Nat) : Dim := ⟨X, Y, Z⟩

/-- `Dim::GetDimensions()`:
`return size_t(x > 1) + size_t(y > 1) + size_t(z > 1);`. -/
def Dim.GetDimensions (d : Dim) : Nat :=
  (if d.x > 1 then 1 else 0) + (if d.y > 1 then 1 else 0) + (if d.z > 1 then 1 else 0)

/-- One enumerated GPU device: its `cl_device_id` handle plus the two info
queries the selector reads (`CL_DEVICE_MAX_COMPUTE_UNITS`,
`CL_DEVICE_MAX_CLOCK_FREQUENCY`). -/
structure DeviceInfo where
  id : Nat
  maxComputeUnits : Nat
  maxClockFrequency : Nat
deriving DecidableEq, Repr

/-- `GetMaxComputeUnits() * GetMaxFrequency()` — the power score the
constructor computes per enumerated device. -/
def score (d : DeviceInfo) : Nat := d.maxComputeUnits * d.maxClockFrequency

/-- `Device::DeviceSelector`: the process-wide registry — the tied-best
handle sequence `ids_` and the round-robin cursor `next_`
(`boost::mutex lock_` serializes access; the lock itself has no
sequential content). -/
structure DeviceSelector where
  ids : List Nat
  next : Nat
deriving DecidableEq, Repr

/-- First selection loop of `Device::Device`:
`power = 0; for each device: tmp = units*freq; if (tmp > power) power = tmp;`. -/
def findPower (devs : List DeviceInfo) : Nat :=
  devs.foldl (fun power d => if score d > power then score d else power) 0

/-- Second selection loop of `Device::Device`: collect every device whose
score equals the maximum into `sel_.ids_`
(`if (power != units*freq) continue; sel_.ids_.push_back(device_id_);`). -/
def tiedBest (devs : List DeviceInfo) : List Nat :=
  (devs.filter (fun d => score d = findPower devs)).map (fun d => d.id)

/-- The cursor clamp and pick of `Device::Device`:
`sel_.next_ = sel_.next_ >= sel_.ids_.size() ? 0 : sel_.next_;
 device_id_ = sel_.ids_[sel_.next_++];`.
The `vector::operator[]` access is modelled with `List.get?`; a `none`
result is the unguarded out-of-bounds access on an empty `ids_`. -/
def selectDevice (sel : DeviceSelector) : Option Nat × DeviceSelector :=
  let n := if sel.next ≥ sel.ids.length then 0 else sel.next
  (sel.ids.get? n, ⟨sel.ids, n + 1⟩)

/-- The whole selection section of one `Device` construction: populate
`ids_` when it is empty (`if (!sel_.ids_.size()) { ... }`), then clamp the
cursor and pick. -/
def constructSelect (devs : List DeviceInfo) (sel : DeviceSelector) :
    Option Nat × DeviceSelector :=
  let sel1 := if sel.ids.isEmpty then DeviceSelector.mk (tiedBest devs) sel.next else sel
  selectDevice sel1

/-- The device handle picked by the (k+1)-st construction when the
registry starts in state `sel` (population already done). -/
def nthSelect (sel : DeviceSelector) : Nat → Option Nat
  | 0 => (selectDevice sel).1
  | k+1 => nthSelect (selectDevice sel).2 k

lemma nthSelect_mod (ids : List Nat) (hM : 0 < ids.length) :
    ∀ (k j : Nat), j ≤ ids.length →
      nthSelect ⟨ids, j⟩ k = ids.get? ((j + k) % ids.length) := by
  intro k
  induction k with
  | zero =>
    intro j hj
    by_cases h : j ≥ ids.length
    · have hje : j = ids.length := le_antisymm hj h
      simp [nthSelect, selectDevice, h, hje, Nat.mod_self]
    · have hjl : j < ids.length := lt_of_not_ge h
      simp [nthSelect, selectDevice, h, Nat.mod_eq_of_lt hjl]
  | succ k ih =>
    intro j hj
    by_cases h : j ≥ ids.length
    · have hje : j = ids.length := le_antisymm hj h
      have h1 : (0 : Nat) + 1 ≤ ids.length := hM
      have := ih 1 h1
      simp only [nthSelect, selectDevice, h, if_pos]
      rw [show (⟨ids, 0 + 1⟩ : DeviceSelector) = ⟨ids, 1⟩ by rfl] at this
      rw [this]
      congr 1
      rw [hje, Nat.add_mod_left, Nat.add_comm 1 k]
    · have hjl : j < ids.length := lt_of_not_ge h
      have h1 : j + 1 ≤ ids.length := hjl
      have := ih (j + 1) h1
      simp only [nthSelect, selectDevice, if_neg h]
      rw [this]
      congr 1
      rw [Nat.add_assoc, Nat.add_comm 1 k]

/-- The vendor allow-list test of `Device::Device` (later variant):
`!strcmp("Advanced Micro Devices, Inc.", str) || !strcmp("NVIDIA Corporation", str)`. -/
def vendorAllowed (s : String) : Bool :=
  s == "Advanced Micro Devices, Inc." || s == "NVIDIA Corporation"

/-- Platform-selection loop of `Device::Device` (later variant):
`platform_use = NULL;` then for each enumerated platform `i`, overwrite
`platform_use = platform_list[i]` whenever its vendor is allow-listed;
`assert(platform_use)` afterwards. A platform is modelled as the pair
(handle, vendor string); `none` means the assert fires (fatal). -/
def selectPlatform (platforms : List (Nat × String)) : Option Nat :=
  platforms.foldl (fun acc p => if vendorAllowed p.2 then some p.1 else acc) none

/-- The selection the claim describes, stated from the claim's own words
for comparison with `selectPlatform`: the FIRST enumerated platform
whose vendor string matches the allow-list. -/
def firstAllowed : List (Nat × String) → Option Nat
  | [] => none
  | p :: rest => if vendorAllowed p.2 then some p.1 else firstAllowed rest

/-- The LAST enumerated platform whose vendor string matches the
allow-list — the reference for what the source loop computes. -/
def lastAllowed : List (Nat × String) → Option Nat
  | [] => none
  | p :: rest =>
    match lastAllowed rest with
    | some h => some h
    | none => if vendorAllowed p.2 then some p.1 else none

lemma selectPlatform_go (l : List (Nat × String)) :
    ∀ init, l.foldl (fun acc p => if vendorAllowed p.2 then some p.1 else acc) init =
      match lastAllowed l with
      | some h => some h
      | none => init := by
  induction l with
  | nil => intro _; rfl
  | cons p rest ih =>
    intro init
    simp only [List.foldl_cons]
    rw [ih]
    cases hrest : lastAllowed rest with
    | some h => simp [lastAllowed, hrest]
    | none => by_cases hp : vendorAllowed p.2 <;> simp [lastAllowed, hrest, hp]

lemma lastAllowed_cons (p : Nat × String) (rest : List (Nat × String)) :
    lastAllowed (p :: rest) = none ↔
      (vendorAllowed p.2 = false ∧ lastAllowed rest = none) := by
  cases hrest : lastAllowed rest with
  | some h => simp [lastAllowed, hrest]
  | none => by_cases hp : vendorAllowed p.2 <;> simp [lastAllowed, hrest, hp]

lemma lastAllowed_none_iff (l : List (Nat × String)) :
    lastAllowed l = none ↔ ∀ p ∈ l, vendorAllowed p.2 = false := by
  induction l with
  | nil => simp [lastAllowed]
  | cons p rest ih =>
    rw [lastAllowed_cons, ih, List.forall_mem_cons]

/-- Counterexample to C2: against a platform list enumerating AMD
(handle 0) before NVIDIA (handle 1) — both allow-listed — the
constructor's loop picks handle 1, the LAST match, while the claim's
"first matching platform" would be handle 0. -/
theorem selectPlatform_not_first :
    selectPlatform
        [(0, "Advanced Micro Devices, Inc."), (1, "NVIDIA Corporation")] = some 1 ∧
    firstAllowed
        [(0, "Advanced Micro Devices, Inc."), (1, "NVIDIA Corporation")] = some 0 ∧
    selectPlatform
        [(0, "Advanced Micro Devices, Inc."), (1, "NVIDIA Corporation")] ≠
      firstAllowed
        [(0, "Advanced Micro Devices, Inc."), (1, "NVIDIA Corporation")] := by
  refine ⟨by decide, by decide, by decide⟩

/-- C2 amended: the constructor picks the LAST enumerated platform whose
vendor string exactly matches the allow-list
{"Advanced Micro Devices, Inc.", "NVIDIA Corporation"}, and
`assert(platform_use)` fails (fatal) exactly when no enumerated
platform's vendor matches. -/
theorem selectPlatform_lastMatch (platforms : List (Nat × String)) :
    selectPlatform platforms = lastAllowed platforms ∧
    (selectPlatform platforms = none ↔
      ∀ p ∈ platforms, vendorAllowed p.2 = false) := by
  have h1 : selectPlatform platforms = lastAllowed platforms := by
    simp only [selectPlatform]
    rw [selectPlatform_go]
    cases lastAllowed platforms <;> rfl
  exact ⟨h1, by rw [h1]; exact lastAllowed_none_iff platforms⟩

/-- Witness for the amended C2: three platforms with only the middle one
allow-listed select handle 5; a list with no allow-listed vendor
selects nothing (the assert path). -/
theorem selectPlatform_lastMatch_witness :
    selectPlatform [(3, "Acme"), (5, "NVIDIA Corporation"), (8, "Umbrella")] = some 5 ∧
    selectPlatform [(3, "Acme"), (8, "Umbrella")] = none := by
  have h1 := (selectPlatform_lastMatch
    [(3, "Acme"), (5, "NVIDIA Corporation"), (8, "Umbrella")]).1
  have h2 := (selectPlatform_lastMatch [(3, "Acme"), (8, "Umbrella")]).2
  exact ⟨by rw [h1]; decide, by rw [h2]; decide⟩

/-- C5 (code bug): with zero GPU devices enumerated and a fresh registry,
the population loops leave `ids_` empty, yet the selection step still
executes `sel_.ids_[sel_.next_++]` — an unguarded out-of-bounds access on
the empty sequence, modelled by the `none` that `List.get?` returns for
the lookup; the cursor is incremented regardless. -/
theorem Device_zeroDevices_unguarded :
    tiedBest [] = [] ∧
    constructSelect [] ⟨[], 0⟩ = (none, ⟨[], 1⟩) :=
  ⟨rfl, rfl⟩

lemma countP_ext {α : Type} (l : List α) (p q : α → Bool) (h : ∀ a ∈ l, p a = q a) :
    l.countP p = l.countP q := by
  induction l with
  | nil => rfl
  | cons a t ih =>
    rw [List.countP_cons, List.countP_cons, h a (List.mem_cons_self a t),
        ih (fun b hb => h b (List.mem_cons_of_mem a hb))]

lemma countP_eq_one_range (M i : Nat) (hi : i < M) :
    (List.range M).countP (fun j => decide (j = i)) = 1 := by
  induction M with
  | zero => omega
  | succ M ih =>
    rw [List.range_succ, List.countP_append]
    by_cases h : i = M
    · subst h
      have h0 : (List.range i).countP (fun j => decide (j = i)) = 0 :=
        List.countP_eq_zero.mpr (by intro a ha; simp only [List.mem_range] at ha; simp; omega)
      simp [h0]
    · have hi' : i < M := by omega
      rw [ih hi']
      have h0 : (([M] : List Nat).countP (fun j => decide (j = i))) = 0 := by
        simp; omega
      rw [h0]

lemma countP_mod_range (M q i : Nat) (hi : i < M) :
    (List.range (M * q)).countP (fun k => decide (k % M = i)) = q := by
  induction q with
  | zero => simp
  | succ q ih =>
    have hsplit : M * (q + 1) = M * q + M := by ring
    rw [hsplit, List.range_add, List.countP_append, ih, List.countP_map]
    have hcong : ∀ a ∈ List.range M,
        ((fun k => decide (k % M = i)) ∘ (fun x => M * q + x)) a =
          (fun j => decide (j = i)) a := by
      intro a ha
      have ha' : a < M := List.mem_range.mp ha
      simp only [Function.comp_apply, decide_eq_decide]
      rw [Nat.mul_add_mod, Nat.mod_eq_of_lt ha']
    rw [countP_ext _ _ _ hcong, countP_eq_one_range M i hi]

/-- C1: once the registry holds the sequence of M (≥ 1) tied-best devices,
successive constructions select in round-robin order: the k-th selection
(counting from 0, cursor starting at 0) is `ids[k % M]`; with a unique
maximum (M = 1) every construction selects the same device; and over any
N constructions with M ∣ N, each registry entry is selected exactly N/M
times. -/
theorem Device_roundRobin (ids : List Nat) (hnd : ids.Nodup) (hM : 0 < ids.length) :
    (∀ k, nthSelect ⟨ids, 0⟩ k = ids.get? (k % ids.length)) ∧
    (ids.length = 1 → ∀ k, nthSelect ⟨ids, 0⟩ k = ids.get? 0) ∧
    (∀ N i, ids.length ∣ N → i < ids.length →
      (List.range N).countP (fun k => decide (nthSelect ⟨ids, 0⟩ k = ids.get? i)) =
        N / ids.length) := by
  have hsel : ∀ k, nthSelect ⟨ids, 0⟩ k = ids.get? (k % ids.length) := by
    intro k
    have := nthSelect_mod ids hM k 0 (Nat.zero_le _)
    simpa using this
  refine ⟨hsel, ?_, ?_⟩
  · intro h1 k
    rw [hsel k, h1, Nat.mod_one]
  · intro N i hdvd hi
    obtain ⟨q, hq⟩ := hdvd
    subst hq
    have hcong : ∀ k ∈ List.range (ids.length * q),
        (fun k => decide (nthSelect ⟨ids, 0⟩ k = ids.get? i)) k =
          (fun k => decide (k % ids.length = i)) k := by
      intro k _
      simp only [decide_eq_decide]
      rw [hsel k]
      constructor
      · intro hEq
        have hlt : k % ids.length < ids.length := Nat.mod_lt _ hM
        have hg : ids[k % ids.length]? = ids[i]? := by
          simpa [List.get?_eq_getElem?] using hEq
        exact List.getElem?_inj hlt hnd hg
      · intro hEq
        rw [hEq]
    rw [countP_ext _ _ _ hcong, countP_mod_range ids.length q i hi,
        Nat.mul_div_cancel_left q hM]

/-- Witness for C1: two tied devices with handles 7 and 9; the first three
constructions pick 7, 9, 7, and over 4 constructions handle 7 is picked
exactly 4/2 = 2 times. -/
theorem Device_roundRobin_witness :
    nthSelect ⟨[7, 9], 0⟩ 0 = some 7 ∧ nthSelect ⟨[7, 9], 0⟩ 1 = some 9 ∧
    nthSelect ⟨[7, 9], 0⟩ 2 = some 7 ∧
    (List.range 4).countP
      (fun k => decide (nthSelect ⟨[7, 9], 0⟩ k = List.get? [7, 9] 0)) = 2 := by
  have h := Device_roundRobin [7, 9] (by decide) (by decide)
  refine ⟨?_, ?_, ?_, ?_⟩
  · simpa using h.1 0
  · simpa using h.1 1
  · simpa using h.1 2
  · have := h.2.2 4 0 ⟨2, rfl⟩ (by decide)
    simpa using this

/-- C9: `Dim::GetDimensions()` returns the count of axes whose extent is
strictly greater than 1 (hence a value ≤ 3), and in particular
`Dim(4,4)` reports 2, `Dim(4)` reports 1 and `Dim(4,4,4)` reports 3. -/
theorem Dim_GetDimensions_spec :
    (∀ d : Dim,
      d.GetDimensions = ([d.x, d.y, d.z].filter (fun e => decide (1 < e))).length ∧
      d.GetDimensions ≤ 3) ∧
    (Dim.mk2 4 4).GetDimensions = 2 ∧ (Dim.mk1 4).GetDimensions = 1 ∧
    (Dim.mk3 4 4 4).GetDimensions = 3 := by
  refine ⟨?_, by decide, by decide, by decide⟩
  intro d
  constructor
  · by_cases hx : 1 < d.x <;> by_cases hy : 1 < d.y <;> by_cases hz : 1 < d.z <;>
      simp [Dim.GetDimensions, hx, hy, hz]
  · simp only [Dim.GetDimensions]
    split_ifs <;> omega

/-- Enqueued driver calls and allocation events recorded by the model. -/
inductive Op where
  | releaseMem (capBytes : Nat)
  | createBuffer (sizeBytes : Nat)
  | writeBuffer (sizeBytes : Nat) (blocking : Bool)
  | readBuffer (sizeBytes : Nat) (blocking : Bool)
  | copyBuffer (srcOffsetBytes dstOffsetBytes sizeBytes : Nat)
  | fillBuffer (patternBytes offsetBytes sizeBytes : Nat)
  | launchKernel (workDim : Nat) (globalSize localSize : Dim)
deriving DecidableEq, Repr

/-- `compute::Buffer<T>` (compute.hpp, later variant): the
`std::vector<T>` base (host contents), the owning `Device*` (modelled as
an id) and `cl_mem device_buffer_` (`none` = NULL; `some c` = a live
allocation whose `CL_MEM_SIZE` is `c` bytes). -/
structure Buffer (α : Type) where
  host : List α
  device : Nat
  device_buffer : Option Nat
deriving DecidableEq, Repr

/-- `Buffer::SizeBytes()`: `std::vector<T>::size() * sizeof(T)`. -/
def Buffer.SizeBytes {α : Type} (sizeofT : Nat) (b : Buffer α) : Nat :=
  b.host.length * sizeofT

/-- `Buffer::DeviceBufferBytes()`: 0 when `device_buffer_` is NULL,
otherwise the allocation's `CL_MEM_SIZE`. -/
def Buffer.DeviceBufferBytes {α : Type} (b : Buffer α) : Nat :=
  b.device_buffer.getD 0

/-- `Buffer::SyncGPUBuffer()`: when
`DeviceBufferBytes() < SizeBytes() || !device_buffer_`, release the old
allocation (if any) and create one sized to the current host byte
length; otherwise do nothing. Returns the new state and the allocation
calls in issue order. -/
def Buffer.SyncGPUBuffer {α : Type} (sizeofT : Nat) (b : Buffer α) :
    Buffer α × List Op :=
  if b.DeviceBufferBytes < b.SizeBytes sizeofT ∨ b.device_buffer = none then
    ({ b with device_buffer := some (b.SizeBytes sizeofT) },
      (match b.device_buffer with
        | some c => [Op.releaseMem c]
        | none => []) ++ [Op.createBuffer (b.SizeBytes sizeofT)])
  else (b, [])

/-- `Buffer::CopyToDevice()`: `SyncGPUBuffer()` followed by a
non-blocking (`CL_FALSE`) `clEnqueueWriteBuffer` of `SizeBytes()` bytes
from the host data. -/
def Buffer.CopyToDevice {α : Type} (sizeofT : Nat) (b : Buffer α) :
    Buffer α × List Op :=
  let s := b.SyncGPUBuffer sizeofT
  (s.1, s.2 ++ [Op.writeBuffer (s.1.SizeBytes sizeofT) false])

/-- `Buffer::CopyToDeviceBuffer(dst, dst_pos, src_pos, len)` exactly as
the source computes it: three asserts (modelled as the guard; `none` is
the failed-assert path), then `clEnqueueCopyBuffer(queue,
device_buffer_, dst.device_buffer_, src_pos, dst_pos, len*sizeof(T),
...)` — the source passes `src_pos` and `dst_pos` (element indices, per
its own asserts) directly in the byte-offset parameters. -/
def Buffer.CopyToDeviceBuffer {α : Type} (sizeofT : Nat) (src dst : Buffer α)
    (dst_pos src_pos len : Nat) : Option Op :=
  if src.device_buffer.isSome ∧ dst.device_buffer.isSome ∧
      dst_pos + len ≤ dst.DeviceBufferBytes / sizeofT ∧
      src_pos + len ≤ src.DeviceBufferBytes / sizeofT then
    some (Op.copyBuffer src_pos dst_pos (len * sizeofT))
  else none

/-- `Buffer::FillDeviceBuffer(value, count, offset)`:
`assert(device_buffer_); assert(count);` then
`clEnqueueFillBuffer(queue, device_buffer_, &value, sizeof(T),
sizeof(T)*offset, sizeof(T)*count, ...)`. `none` is the failed-assert
path; the buffer state is unchanged on success. -/
def Buffer.FillDeviceBuffer {α : Type} (sizeofT : Nat) (b : Buffer α)
    (count offset : Nat) : Option (Buffer α × Op) :=
  if b.device_buffer.isSome ∧ count ≠ 0 then
    some (b, Op.fillBuffer sizeofT (sizeofT * offset) (sizeofT * count))
  else none

/-- `Buffer(const Buffer &other)`: copy the `std::vector<T>` base and
`device_`, initialize `device_buffer_(NULL)`. -/
def Buffer.copy {α : Type} (other : Buffer α) : Buffer α :=
  ⟨other.host, other.device, none⟩

/-- `Buffer::operator=(const Buffer &other)`:
`std::vector<T>::operator=(other)` only — the target's `device_` and
`device_buffer_` are untouched. -/
def Buffer.assign {α : Type} (dst other : Buffer α) : Buffer α :=
  ⟨other.host, dst.device, dst.device_buffer⟩

lemma sync_eq_noAlloc {α : Type} (sizeofT : Nat) (b : Buffer α)
    (hdb : b.device_buffer = none) :
    b.SyncGPUBuffer sizeofT =
      ({ b with device_buffer := some (b.SizeBytes sizeofT) },
        [Op.createBuffer (b.SizeBytes sizeofT)]) := by
  simp [Buffer.SyncGPUBuffer, hdb]

lemma sync_eq_grow {α : Type} (sizeofT : Nat) (b : Buffer α) (c : Nat)
    (hdb : b.device_buffer = some c) (hlt : c < b.SizeBytes sizeofT) :
    b.SyncGPUBuffer sizeofT =
      ({ b with device_buffer := some (b.SizeBytes sizeofT) },
        [Op.releaseMem c, Op.createBuffer (b.SizeBytes sizeofT)]) := by
  simp [Buffer.SyncGPUBuffer, Buffer.DeviceBufferBytes, hdb, hlt]

lemma sync_eq_fits {α : Type} (sizeofT : Nat) (b : Buffer α) (c : Nat)
    (hdb : b.device_buffer = some c) (hle : b.SizeBytes sizeofT ≤ c) :
    b.SyncGPUBuffer sizeofT = (b, []) := by
  have hnlt : ¬ c < b.SizeBytes sizeofT := Nat.not_lt.mpr hle
  simp [Buffer.SyncGPUBuffer, Buffer.DeviceBufferBytes, hdb, hnlt]

/-- C3: `CopyToDevice()` first ensures device capacity ≥ host byte size —
reallocating (releasing the old allocation, then creating one sized to
the current host byte length) exactly when no allocation exists or the
capacity falls short — performs no reallocation when the capacity
already suffices (in particular after the host sequence shrank), and
then enqueues exactly one non-blocking write of the full host byte
range. -/
theorem Buffer_CopyToDevice_spec {α : Type} (sizeofT : Nat) (b : Buffer α) :
    b.SizeBytes sizeofT ≤ (b.CopyToDevice sizeofT).1.DeviceBufferBytes ∧
    (b.CopyToDevice sizeofT).1.host = b.host ∧
    ((∃ n, Op.createBuffer n ∈ (b.CopyToDevice sizeofT).2) ↔
      (b.device_buffer = none ∨ b.DeviceBufferBytes < b.SizeBytes sizeofT)) ∧
    (∀ c, b.device_buffer = some c → b.SizeBytes sizeofT ≤ c →
      (b.CopyToDevice sizeofT).2 = [Op.writeBuffer (b.SizeBytes sizeofT) false]) ∧
    (∀ c, b.device_buffer = some c → c < b.SizeBytes sizeofT →
      (b.CopyToDevice sizeofT).2 =
        [Op.releaseMem c, Op.createBuffer (b.SizeBytes sizeofT),
         Op.writeBuffer (b.SizeBytes sizeofT) false]) ∧
    (b.device_buffer = none →
      (b.CopyToDevice sizeofT).2 =
        [Op.createBuffer (b.SizeBytes sizeofT),
         Op.writeBuffer (b.SizeBytes sizeofT) false]) := by
  rcases hdb : b.device_buffer with _ | c
  · have hs := sync_eq_noAlloc sizeofT b hdb
    refine ⟨?_, ?_, ?_, ?_, ?_, ?_⟩
    · simp [Buffer.CopyToDevice, hs, Buffer.DeviceBufferBytes]
    · simp [Buffer.CopyToDevice, hs]
    · simp [Buffer.CopyToDevice, hs, hdb]
    · intro c hc
      exact absurd hc (by simp)
    · intro c hc
      exact absurd hc (by simp)
    · intro _
      simp [Buffer.CopyToDevice, hs, Buffer.SizeBytes]
  · rcases Nat.lt_or_ge c (b.SizeBytes sizeofT) with hlt | hge
    · have hs := sync_eq_grow sizeofT b c hdb hlt
      have hdbb : b.DeviceBufferBytes = c := by
        simp [Buffer.DeviceBufferBytes, hdb]
      refine ⟨?_, ?_, ?_, ?_, ?_, ?_⟩
      · simp [Buffer.CopyToDevice, hs, Buffer.DeviceBufferBytes]
      · simp [Buffer.CopyToDevice, hs]
      · simp [Buffer.CopyToDevice, hs, hdb, hdbb, hlt]
      · intro c' hc' hle
        rw [Option.some_inj] at hc'
        subst hc'
        exact absurd hle (Nat.not_le.mpr hlt)
      · intro c' hc' _
        rw [Option.some_inj] at hc'
        subst hc'
        simp [Buffer.CopyToDevice, hs, Buffer.SizeBytes]
      · intro h
        exact absurd h (by simp)
    · have hs := sync_eq_fits sizeofT b c hdb hge
      have hdbb : b.DeviceBufferBytes = c := by
        simp [Buffer.DeviceBufferBytes, hdb]
      refine ⟨?_, ?_, ?_, ?_, ?_, ?_⟩
      · simp only [Buffer.CopyToDevice, hs]
        rw [hdbb]
        exact hge
      · simp [Buffer.CopyToDevice, hs]
      · simp [Buffer.CopyToDevice, hs, hdb, hdbb, Nat.not_lt.mpr hge]
      · intro c' hc' _
        rw [Option.some_inj] at hc'
        subst hc'
        simp [Buffer.CopyToDevice, hs, Buffer.SizeBytes]
      · intro c' hc' hlt
        rw [Option.some_inj] at hc'
        subst hc'
        exact absurd hlt (Nat.not_lt.mpr hge)
      · intro h
        exact absurd h (by simp)

set_option maxRecDepth 10000 in
/-- Witness for C3, the spec's float example (`sizeof(float)` = 4): a
buffer grown to 1000 elements whose allocation holds 40 bytes
reallocates to 4000 bytes; shrunk back to 10 elements with the 4000-byte
allocation kept, `CopyToDevice()` issues only the 40-byte write. -/
theorem Buffer_CopyToDevice_witness :
    (Buffer.CopyToDevice 4 (⟨List.replicate 1000 (), 0, some 40⟩ : Buffer Unit)).2 =
      [Op.releaseMem 40, Op.createBuffer 4000, Op.writeBuffer 4000 false] ∧
    (Buffer.CopyToDevice 4 (⟨List.replicate 10 (), 0, some 4000⟩ : Buffer Unit)).2 =
      [Op.writeBuffer 40 false] := by
  constructor
  · have h := (Buffer_CopyToDevice_spec 4
      (⟨List.replicate 1000 (), 0, some 40⟩ : Buffer Unit)).2.2.2.2.1 40 rfl
      (by simp [Buffer.SizeBytes])
    simpa [Buffer.SizeBytes] using h
  · have h := (Buffer_CopyToDevice_spec 4
      (⟨List.replicate 10 (), 0, some 4000⟩ : Buffer Unit)).2.2.2.1 4000 rfl
      (by simp [Buffer.SizeBytes])
    simpa [Buffer.SizeBytes] using h

/-- C4 (code bug): for `Buffer<int>` (`sizeof(T)` = 4) with source and
destination each backed by an 8-byte (2-element) device allocation, the
call `src.CopyToDeviceBuffer(dst, 0, 1, 1)` passes all three asserts and
enqueues a copy whose source byte offset is 1 — the element index passed
through unscaled — instead of byte offset 1 × sizeof(T) = 4, which "the
len elements starting at element index src_pos" requires. -/
theorem Buffer_CopyToDeviceBuffer_offsetBug :
    Buffer.CopyToDeviceBuffer 4 (⟨[0, 0], 0, some 8⟩ : Buffer Int)
        ⟨[0, 0], 1, some 8⟩ 0 1 1 =
      some (Op.copyBuffer 1 0 4) ∧ (1 : Nat) ≠ 1 * 4 := by
  constructor
  · decide
  · decide

/-- C8: `FillDeviceBuffer` on a buffer with no device allocation fails its
precondition check (`assert(device_buffer_)`): the call takes the fatal
path — no device allocation is created and no fill is enqueued. -/
theorem Buffer_FillDeviceBuffer_requiresAllocation {α : Type} (sizeofT : Nat)
    (b : Buffer α) (count offset : Nat) (h : b.device_buffer = none) :
    b.FillDeviceBuffer sizeofT count offset = none := by
  simp [Buffer.FillDeviceBuffer, h]

/-- Witness for C8: a 3-element `Buffer<int>` never copied to the device
(`device_buffer_` NULL) rejects `FillDeviceBuffer(value, 2, 0)`. -/
theorem Buffer_FillDeviceBuffer_requiresAllocation_witness :
    Buffer.FillDeviceBuffer 4 (⟨[0, 0, 0], 0, none⟩ : Buffer Int) 2 0 = none :=
  Buffer_FillDeviceBuffer_requiresAllocation 4 _ 2 0 rfl

/-- C10: copying a `Buffer` never duplicates or transfers its device
allocation: the copy constructor takes the source's host contents and
Device owner but leaves `device_buffer_` NULL (Unallocated) even when
the source's allocation is live, and `operator=` copies only the host
contents, keeping the target's own Device owner and device allocation
handle. -/
theorem Buffer_copy_noDeviceTransfer {α : Type} (b dst : Buffer α) :
    (Buffer.copy b).host = b.host ∧ (Buffer.copy b).device = b.device ∧
    (Buffer.copy b).device_buffer = none ∧
    (Buffer.assign dst b).host = b.host ∧
    (Buffer.assign dst b).device = dst.device ∧
    (Buffer.assign dst b).device_buffer = dst.device_buffer :=
  ⟨rfl, rfl, rfl, rfl, rfl, rfl⟩

/-- The six supported fixed-width scalar argument types
(`Kernel::Arg` specializations for `cl_int`, `cl_uint`, `cl_long`,
`cl_ulong`, `cl_float`, `cl_double`). -/
inductive ScalarTy where
  | clInt
  | clUint
  | clLong
  | clUlong
  | clFloat
  | clDouble
deriving DecidableEq, Repr

/-- `sizeof` of each supported scalar type. -/
def ScalarTy.width : ScalarTy → Nat
  | .clInt => 4
  | .clUint => 4
  | .clLong => 8
  | .clUlong => 8
  | .clFloat => 4
  | .clDouble => 8

/-- `sizeof(cl_mem)` on a 64-bit host. -/
def sizeofClMem : Nat := 8

/-- A host value passed as a kernel argument, by semantic kind:
`Buffer<T>` (carrying its `cl_mem`, possibly NULL), `LocalBuffer<T>`
scratch (carrying `SizeBytes()`), a supported scalar, or any other host
type, which only the generic `Arg<T>` template matches. -/
inductive HostArg where
  | bufferArg (devMem : Option Nat)
  | localArg (sizeBytes : Nat)
  | scalar (ty : ScalarTy)
  | other (typeName : String)
deriving DecidableEq, Repr

/-- Outcome of `Kernel::Arg<T>::Set(kernel_, index, arg)`: either a
`clSetKernelArg` call (slot index, byte width, whether a host-side value
pointer is passed — `LocalBuffer` passes NULL), or the fatal generic
path with its diagnostic text. -/
inductive BindResult where
  | bound (index sizeBytes : Nat) (hasHostPtr : Bool)
  | fatal (diagnostic : String)
deriving DecidableEq, Repr

/-- `Kernel::Arg<T>::Set`: `Buffer<T>` binds `sizeof(cl_mem)` with the
handle's address, `LocalBuffer<T>` binds `SizeBytes()` with NULL, the
six scalar specializations bind `sizeof(T)` with the value's address,
and the unspecialized template prints
`unimplemented argument for type "<typeid name>"` and calls `abort()`. -/
def argSet (index : Nat) : HostArg → BindResult
  | .bufferArg _ => .bound index sizeofClMem true
  | .localArg sz => .bound index sz false
  | .scalar ty => .bound index ty.width true
  | .other typeName =>
      .fatal ("unimplemented argument for type \"" ++ typeName ++ "\"")

/-- C7: binding a kernel argument of unsupported kind is fatal: the
generic `Arg<T>::Set` emits a diagnostic naming the type and aborts —
it never produces a bound slot (no silent proceeding, no default
value). -/
theorem Kernel_unsupportedArg_fatal (index : Nat) (typeName : String) :
    argSet index (.other typeName) =
      .fatal ("unimplemented argument for type \"" ++ typeName ++ "\"") ∧
    ∀ i sz hp, argSet index (.other typeName) ≠ .bound i sz hp := by
  refine ⟨rfl, ?_⟩
  intro i sz hp h
  exact BindResult.noConfusion h

/-- Witness for C7: binding a user-defined aggregate type is the fatal
diagnostic naming it. -/
theorem Kernel_unsupportedArg_fatal_witness :
    argSet 3 (.other "MyAggregate") =
      .fatal "unimplemented argument for type \"MyAggregate\"" :=
  (Kernel_unsupportedArg_fatal 3 "MyAggregate").1

/-- The single-argument `Kernel::operator()` — the base case every
longer-arity overload recurses into: bind slot 0, then
`assert(local_size.GetDimensions() == global_size.GetDimensions())`,
then `clEnqueueNDRangeKernel(queue, kernel_, local_size.GetDimensions(),
NULL, global_size.array, local_size.array, ...)`. The trace holds the
enqueued launches; `some diagnostic` is the abort/assert path. -/
def Kernel.invoke1 (arg0 : HostArg) (local_size global_size : Dim) :
    List Op × Option String :=
  match argSet 0 arg0 with
  | .fatal diag => ([], some diag)
  | .bound _ _ _ =>
    if local_size.GetDimensions = global_size.GetDimensions then
      ([Op.launchKernel local_size.GetDimensions global_size local_size], none)
    else
      ([], some "assert: local_size.GetDimensions() == global_size.GetDimensions()")

/-- C6: a kernel invocation whose local and global `Dim` report different
`GetDimensions()` values is rejected (failed assert) before enqueue: the
operation trace stays empty, so no kernel range with mismatched
dimensionality is ever enqueued. -/
theorem Kernel_dimMismatch_rejected (arg0 : HostArg) (local_size global_size : Dim)
    (h : local_size.GetDimensions ≠ global_size.GetDimensions) :
    (Kernel.invoke1 arg0 local_size global_size).1 = [] ∧
    (Kernel.invoke1 arg0 local_size global_size).2 ≠ none := by
  cases harg : argSet 0 arg0 with
  | fatal d => simp [Kernel.invoke1, harg]
  | bound i sz hp => simp [Kernel.invoke1, harg, h]

/-- Witness for C6: a 2-D local `Dim(4,4)` with a 3-D global `Dim(4,4,4)`
enqueues nothing. -/
theorem Kernel_dimMismatch_rejected_witness :
    (Kernel.invoke1 (.scalar .clInt) (Dim.mk2 4 4) (Dim.mk3 4 4 4)).1 = [] :=
  (Kernel_dimMismatch_rejected (.scalar .clInt) (Dim.mk2 4 4) (Dim.mk3 4 4 4)
    (by decide)).1

end Compute
